import Mathlib

/-!
Shallow embedding of the shopeepicklist order-expansion program.

`shopeepicklist.py` is embedded function by function: the rule tables
(`SIZE_TO_SKU`, `SIZES_TO_SKU`, `BUNDLE_SKUS`), the quantity parser
(`parse_quantity`), the three row processors (`process_individual_sizes`,
`process_bundle_sizes`, `process_special_bundles`) and the sheet pipeline
(`apply_batch_updates`, `append_new_rows`, `clear_processed_rows`,
`process_picklist`).  The entry splitter of `data_processor.py` is embedded
as `normalizeEntries`.  Strings are handled as `List Char`; Python integers
are unbounded, so they are `Int`.
-/

namespace ShopeePicklist

/-! ### Python string helpers -/

/-- The whitespace characters `str.strip()` removes (the ASCII ones, which are
the only ones the program's data can contain). -/
def pyIsSpace (c : Char) : Bool :=
  c = ' ' || c = '\t' || c = '\n' || c = '\r' || c = Char.ofNat 11 || c = Char.ofNat 12

/-- `str.strip()` on a character list. -/
def pyStripL (cs : List Char) : List Char :=
  ((cs.dropWhile pyIsSpace).reverse.dropWhile pyIsSpace).reverse

/-- `str.strip()`. -/
def pyStrip (s : String) : String := String.mk (pyStripL s.data)

/-- `s.replace('Quantity: ', '')`: delete every occurrence of `"Quantity: "`,
scanning left to right and resuming after each deleted occurrence. -/
def removeQTag : List Char → List Char
  | 'Q' :: 'u' :: 'a' :: 'n' :: 't' :: 'i' :: 't' :: 'y' :: ':' :: ' ' :: rest => removeQTag rest
  | c :: rest => c :: removeQTag rest
  | [] => []

/-- Value of a decimal digit string. -/
def natOfDigits (ds : List Char) : Nat :=
  ds.foldl (fun n c => 10 * n + (c.toNat - '0'.toNat)) 0

/-- Python `int(...)` on an already-stripped string: an optional sign followed
by decimal digits (the fragment of `int` reachable from this program's data;
anything else raises `ValueError`, modelled as `none`). -/
def pyInt (cs : List Char) : Option Int :=
  match cs with
  | '-' :: ds =>
    if ds ≠ [] ∧ ds.all Char.isDigit then some (-(natOfDigits ds : Int)) else none
  | '+' :: ds =>
    if ds ≠ [] ∧ ds.all Char.isDigit then some ((natOfDigits ds : Int)) else none
  | ds =>
    if ds ≠ [] ∧ ds.all Char.isDigit then some ((natOfDigits ds : Int)) else none

/-- `s.split(',')` on a character list. -/
def splitComma : List Char → List (List Char)
  | [] => [[]]
  | ',' :: rest => [] :: splitComma rest
  | c :: rest =>
    match splitComma rest with
    | h :: t => (c :: h) :: t
    | [] => [[c]]

/-- Split at the first occurrence of `sep`.  The rule-table values contain
exactly one occurrence of their separator, so this agrees with Python's
two-element unpacking `a, b = s.split(sep)` on every reachable value. -/
def splitFirstOn (sep : List Char) : List Char → List Char × List Char
  | [] => ([], [])
  | c :: rest =>
    if sep ≠ [] ∧ sep.isPrefixOf (c :: rest) then ([], (c :: rest).drop sep.length)
    else
      let p := splitFirstOn sep rest
      (c :: p.1, p.2)

/-- Python's substring test `needle in hay`. -/
def hasSub (needle : List Char) : List Char → Bool
  | [] => needle.isPrefixOf []
  | c :: rest => needle.isPrefixOf (c :: rest) || hasSub needle rest

/-- `needle in hay` on strings. -/
def strContains (hay needle : String) : Bool := hasSub needle.data hay.data

/-! ### The two size regexes

`re.search` with the patterns `\(\d+(?:\.\d+)?\" [xX] \d+(?:\.\d+)?\"\) \d+pc`
and `\(\d+ SIZES, \d+s\)`.  Both patterns are deterministic (each greedy
repetition is followed by a character that cannot extend it), so a
maximal-munch matcher at each position, scanning positions left to right,
computes exactly the Python match and `group(0)` text. -/

/-- Match one expected character at the head. -/
def pChar (c : Char) : List Char → Option (List Char × List Char)
  | x :: rest => if x = c then some ([c], rest) else none
  | [] => none

/-- Match a literal character sequence at the head. -/
def pLit (lit : List Char) (cs : List Char) : Option (List Char × List Char) :=
  if lit.isPrefixOf cs then some (lit, cs.drop lit.length) else none

/-- `\d+`: one or more digits, greedy. -/
def pDigits (cs : List Char) : Option (List Char × List Char) :=
  let ds := cs.takeWhile Char.isDigit
  if ds = [] then none else some (ds, cs.drop ds.length)

/-- `(?:\.\d+)?`: optional fraction, greedy. -/
def pOptFrac (cs : List Char) : List Char × List Char :=
  match cs with
  | '.' :: rest =>
    match pDigits rest with
    | some (ds, r) => ('.' :: ds, r)
    | none => ([], '.' :: rest)
  | _ => ([], cs)

/-- `\d+(?:\.\d+)?`. -/
def pNumber (cs : List Char) : Option (List Char × List Char) := do
  let (ds, r1) ← pDigits cs
  let fr := pOptFrac r1
  pure (ds ++ fr.1, fr.2)

/-- `[xX]`. -/
def pXX : List Char → Option (List Char × List Char)
  | 'x' :: rest => some (['x'], rest)
  | 'X' :: rest => some (['X'], rest)
  | _ => none

/-- One anchored attempt of `\(\d+(?:\.\d+)?\" [xX] \d+(?:\.\d+)?\"\) \d+pc`;
returns the matched text (`group(0)`). -/
def sizeMatchAt (cs : List Char) : Option (List Char) := do
  let (_, r1) ← pChar '(' cs
  let (n1, r2) ← pNumber r1
  let (_, r3) ← pChar '"' r2
  let (_, r4) ← pChar ' ' r3
  let (x, r5) ← pXX r4
  let (_, r6) ← pChar ' ' r5
  let (n2, r7) ← pNumber r6
  let (_, r8) ← pChar '"' r7
  let (_, r9) ← pChar ')' r8
  let (_, r10) ← pChar ' ' r9
  let (d, r11) ← pDigits r10
  let (_, r12) ← pChar 'p' r11
  let (_, _) ← pChar 'c' r12
  pure (['('] ++ n1 ++ ['"', ' '] ++ x ++ [' '] ++ n2 ++ ['"', ')', ' '] ++ d ++ ['p', 'c'])

/-- One anchored attempt of `\(\d+ SIZES, \d+s\)`. -/
def bundleMatchAt (cs : List Char) : Option (List Char) := do
  let (_, r1) ← pChar '(' cs
  let (d1, r2) ← pDigits r1
  let (_, r3) ← pLit " SIZES, ".data r2
  let (d2, r4) ← pDigits r3
  let (_, r5) ← pChar 's' r4
  let (_, _) ← pChar ')' r5
  pure (['('] ++ d1 ++ " SIZES, ".data ++ d2 ++ ['s', ')'])

/-- `re.search`: try the anchored pattern at each position, left to right. -/
def searchPat (p : List Char → Option (List Char)) : List Char → Option (List Char)
  | [] => none
  | c :: rest =>
    match p (c :: rest) with
    | some m => some m
    | none => searchPat p rest

/-- The loop `for field in [order_id, sku]: if field and re.search(pat, field):
take group(0) and break` shared by both size processors. -/
def fieldSearch (p : List Char → Option (List Char)) (order_id sku : String) : Option String :=
  match (if order_id = "" then none else searchPat p order_id.data) with
  | some m => some (String.mk m)
  | none =>
    match (if sku = "" then none else searchPat p sku.data) with
    | some m => some (String.mk m)
    | none => none

/-! ### The configuration dictionaries -/

/-- `SIZE_TO_SKU`: single-size variation → `"SKU x multiplier"`. -/
def SIZE_TO_SKU : List (String × String) := [
  ("(10\" x 7\") 5pc", "1152 x 1"),
  ("(10\" x 7\") 10pc", "1152 x 2"),
  ("(10\" x 7\") 15pc", "1152 x 3"),
  ("(10\" x 7\") 20pc", "1152 x 4"),
  ("(10.5\" x 11\") 5pc", "1153 x 1"),
  ("(10.5\" x 11\") 10pc", "1153 x 2"),
  ("(10.5\" x 11\") 15pc", "1153 x 3"),
  ("(10.5\" x 11\") 20pc", "1153 x 4"),
  ("(13\" x 16\") 5pc", "1154 x 1"),
  ("(13\" x 16\") 10pc", "1154 x 2"),
  ("(13\" x 16\") 15pc", "1154 x 3"),
  ("(13\" x 16\") 20pc", "1154 x 4"),
  ("(15\" X 20\") 3pc", "1318 x 1"),
  ("(15\" X 20\") 6pc", "1318 x 2"),
  ("(15\" X 20\") 9pc", "1318 x 3"),
  ("(15\" X 20\") 12pc", "1318 x 4")]

/-- `SIZES_TO_SKU`: multi-size bundle → comma-separated `"SKU x multiplier"`. -/
def SIZES_TO_SKU : List (String × String) := [
  ("(3 SIZES, 5s)", "1152 x 1,1153 x 1,1154 x 1"),
  ("(3 SIZES, 10s)", "1152 x 2,1153 x 2,1154 x 2"),
  ("(3 SIZES, 15s)", "1152 x 3,1153 x 3,1154 x 3"),
  ("(3 SIZES, 20s)", "1152 x 4,1153 x 4,1154 x 4")]

/-- `BUNDLE_SKUS`: named special bundle → comma-separated `"SKU multiplier"`. -/
def BUNDLE_SKUS : List (String × String) := [
  ("Boot Polishing Pack", "941 1, 6425 1"),
  ("Pouch and Stick", "019 1, 169 1"),
  ("RCK-FULLSET", "74 1, 924 1, 925 1,926 1,927 1, 940 1, 1124 1")]

/-! ### `parse_quantity` -/

/-- `parse_quantity` together with its side effect: the `Bool` is `true` when
the `int` conversion raised `ValueError` and a warning was logged. -/
def parse_quantityW (quantity_str : String) : Int × Bool :=
  match pyInt (pyStripL (removeQTag quantity_str.data)) with
  | some n => (n, false)
  | none => (0, true)

/-- `parse_quantity`: strip the `"Quantity: "` tag and convert; `0` on a
`ValueError`. -/
def parse_quantity (quantity_str : String) : Int := (parse_quantityW quantity_str).1

/-- `f"Quantity: {n}"`. -/
def qstr (n : Int) : String := "Quantity: " ++ toString n

/-! ### `process_individual_sizes` -/

/-- The body of the `process_individual_sizes` loop for one row.  The source
writes the updates to cells `C{index}` and `B{index}`; the embedding keeps the
row index and the value. -/
def indivRowStep (index : Nat) (order_id quantity_str sku : String) :
    List (Nat × String) × List (Nat × String) :=
  if order_id = "" ∨ quantity_str = "" then ([], [])
  else
    match fieldSearch sizeMatchAt order_id sku with
    | none => ([], [])
    | some size_match =>
      match List.lookup size_match SIZE_TO_SKU with
      | none => ([], [])
      | some sku_size =>
        let p := splitFirstOn " x ".data sku_size.data
        let base_quantity := (pyInt p.2).getD 0
        let quantity := parse_quantity quantity_str
        let total_quantity := base_quantity * quantity
        ([(index, String.mk p.1)], [(index, qstr total_quantity)])

/-- Does a row's text match a `SingleSize` rule of the catalog: the size
pattern must match and the matched text must be a `SIZE_TO_SKU` key (a
pattern match whose text is no key selects no rule and produces nothing). -/
def sizeRuleMatch (order_id sku : String) : Option String :=
  match fieldSearch sizeMatchAt order_id sku with
  | none => none
  | some key =>
    match List.lookup key SIZE_TO_SKU with
    | none => none
    | some _ => some key

/-- The `enumerate(..., start=1)` loop of `process_individual_sizes`. -/
def indivAux : Nat → List (String × String × String) →
    List (Nat × String) × List (Nat × String)
  | _, [] => ([], [])
  | index, (oid, q, sk) :: rest =>
    let head := indivRowStep index oid q sk
    let tail := indivAux (index + 1) rest
    (head.1 ++ tail.1, head.2 ++ tail.2)

/-- `process_individual_sizes`.  The returned `rows_to_clear` is the constant
`[]`: the source initialises it and never appends to it. -/
def process_individual_sizes (order_ids quantities skus : List String) :
    List (Nat × String) × List (Nat × String) × List Nat :=
  let r := indivAux 1 (order_ids.zip (quantities.zip skus))
  (r.1, r.2, [])

/-! ### `process_bundle_sizes` -/

/-- The row-skip test and bundle-pattern search of `process_bundle_sizes`. -/
def bundleRowMatch (order_id quantity_str sku : String) : Option String :=
  if order_id = "" ∨ quantity_str = "" then none
  else fieldSearch bundleMatchAt order_id sku

/-- The inner loop of `process_bundle_sizes`: expand one matched row into its
`[order_id, quantity, sku, parent_sku]` rows. -/
def bundleExpansion (key order_id quantity_str sku : String) : List (List String) :=
  (splitComma ((List.lookup key SIZES_TO_SKU).getD "").data).filterMap fun entry =>
    if entry = [] then none
    else
      let p := splitFirstOn " x ".data entry
      let base_quantity := (pyInt p.2).getD 0
      let quantity := parse_quantity quantity_str
      some [order_id, qstr (base_quantity * quantity), String.mk p.1, sku]

/-- The `enumerate(..., start=1)` loop of `process_bundle_sizes`. -/
def bundleAux : Nat → List (String × String × String) → List (List String) × List Nat
  | _, [] => ([], [])
  | index, (oid, q, sk) :: rest =>
    let tail := bundleAux (index + 1) rest
    match bundleRowMatch oid q sk with
    | none => tail
    | some key => (bundleExpansion key oid q sk ++ tail.1, index :: tail.2)

/-- `process_bundle_sizes`. -/
def process_bundle_sizes (order_ids quantities skus : List String) :
    List (List String) × List Nat :=
  bundleAux 1 (order_ids.zip (quantities.zip skus))

/-! ### `process_special_bundles` -/

/-- The chain of special-bundle tests of `process_special_bundles`. -/
def specialBundleMatch (order_id sku : String) : Option String :=
  if sku = "RCK-FULLSET" then some "RCK-FULLSET"
  else if strContains sku "Boot Polishing Pack" || strContains order_id "Boot Polishing Pack" then
    some "Boot Polishing Pack"
  else if strContains sku "Pouch and Stick" || strContains order_id "Pouch and Stick" then
    some "Pouch and Stick"
  else none

/-- The row-skip test (`if not sku or not quantity_str`) and bundle test of
`process_special_bundles`. -/
def specialRowMatch (order_id quantity_str sku : String) : Option String :=
  if sku = "" ∨ quantity_str = "" then none
  else specialBundleMatch order_id sku

/-- The inner loop of `process_special_bundles`: expand one matched row. -/
def specialExpansion (key order_id quantity_str sku parent_sku : String) :
    List (List String) :=
  (splitComma ((List.lookup key BUNDLE_SKUS).getD "").data).filterMap fun item =>
    let it := pyStripL item
    if it = [] then none
    else
      let p := splitFirstOn [' '] it
      let quantity := parse_quantity quantity_str
      let total := ((pyInt p.2).getD 0) * quantity
      some [order_id, qstr total, String.mk p.1,
        if parent_sku = "" then sku else parent_sku]

/-- The `enumerate(..., start=1)` loop of `process_special_bundles`. -/
def specialAux : Nat → List (String × String × String × String) →
    List (List String) × List Nat
  | _, [] => ([], [])
  | index, (oid, q, sk, pk) :: rest =>
    let tail := specialAux (index + 1) rest
    match specialRowMatch oid q sk with
    | none => tail
    | some key => (specialExpansion key oid q sk pk ++ tail.1, index :: tail.2)

/-- `process_special_bundles`. -/
def process_special_bundles (order_ids quantities skus parent_skus : List String) :
    List (List String) × List Nat :=
  specialAux 1 (order_ids.zip (quantities.zip (skus.zip parent_skus)))

/-! ### The entry splitter of `data_processor.py`

`re.split(r'(?=\[\d+\])(?<!\[1\])', x)` splits at every position where the
lookahead `\[\d+\]` matches and the three preceding characters are not `[1]`
(a negative lookbehind succeeds when fewer than three characters precede the
position).  Since Python 3.7 a zero-width match at position 0 produces a
leading empty piece.  The splitter below carries the consumed characters of
the current piece in reverse; two split positions are always at least three
characters apart, so the three lookbehind characters never reach back past
the start of the current piece. -/

/-- The lookahead `\[\d+\]` anchored at the head. -/
def markerAtB : List Char → Bool
  | c :: rest =>
    if c = '[' then
      match pDigits rest with
      | some (_, ']' :: _) => true
      | _ => false
    else false
  | [] => false

/-- `re.split(r'(?=\[\d+\])(?<!\[1\])', x)`: `acc` is the current piece,
reversed, so `acc.take 3` is the lookbehind window read backwards. -/
def splitMarkersAux : List Char → List Char → List (List Char)
  | acc, [] => [acc.reverse]
  | acc, c :: rest =>
    if markerAtB (c :: rest) = true ∧ acc.take 3 ≠ [']', '1', '['] then
      acc.reverse :: splitMarkersAux [c] rest
    else
      splitMarkersAux (c :: acc) rest

/-- `re.sub(r'\r\n', ' ', s)`. -/
def replaceCRLF : List Char → List Char
  | '\r' :: '\n' :: rest => ' ' :: replaceCRLF rest
  | c :: rest => c :: replaceCRLF rest
  | [] => []

/-- `re.sub(' +', ' ', s)`: the flag records whether the previous character
was a space, so each maximal run of spaces becomes one space. -/
def collapseSp : Bool → List Char → List Char
  | _, [] => []
  | afterSp, ' ' :: rest =>
    if afterSp then collapseSp true rest else ' ' :: collapseSp true rest
  | _, c :: rest => c :: collapseSp false rest

/-- The per-entry cleanup chain of `process_shopee_export`:
`strip`, then `\r\n` → `' '`, then `' +'` → `' '`, then `strip`. -/
def cleanupChars (cs : List Char) : List Char :=
  pyStripL (collapseSp false (replaceCRLF (pyStripL cs)))

/-- The cleanup chain on strings. -/
def cleanupEntry (s : String) : String := String.mk (cleanupChars s.data)

/-- The normalizer of `process_shopee_export` for one `product_info` cell:
split on the bracket pattern, discard empty pieces, clean up each piece. -/
def normalizeEntries (x : String) : List String :=
  ((splitMarkersAux [] x.data).filter (fun p => p ≠ [])).map fun p =>
    String.mk (cleanupChars p)

/-- Does the lookahead `\[\d+\]` match anywhere in `cs`?  (Used to state
"the cell contains no bracketed numeric marker".) -/
def hasMarkerIn (cs : List Char) : Bool :=
  (List.range cs.length).any fun i => markerAtB (cs.drop i)

/-- The common shape of the three `enumerate(..., start=1)` loops: concatenate
the output each row produces at its 1-based index. -/
def enumConcat (f : Nat → α → List β) : Nat → List α → List β
  | _, [] => []
  | i, a :: rest => f i a ++ enumConcat f (i + 1) rest

/-! ### The sheet pipeline of `process_picklist`

The worksheet is modelled as a rectangular list of rows of four cells
(columns A–D), which is what `col_values(1..4)` reads back.  The three sink
operations can fail (`gspread` raising); each failure possibility is a flag
of `SinkBehavior`, and, as in the source, a failed operation is logged and
the exception swallowed. -/

/-- Which sink operations succeed during a run. -/
structure SinkBehavior where
  batchOk : Bool
  appendOk : Bool
  clearOk : Bool

/-- A sink where every write succeeds. -/
def sinkAllOk : SinkBehavior := ⟨true, true, true⟩

/-- `worksheet.col_values(c+1)` on the rectangular model. -/
def colValues (sheet : List (List String)) (c : Nat) : List String :=
  sheet.map fun r => r.getD c ""

/-- Write one value at (1-indexed row, 0-indexed column). -/
def setCell (s : List (List String)) (u : Nat × Nat × String) : List (List String) :=
  s.set (u.1 - 1) ((s.getD (u.1 - 1) []).set u.2.1 u.2.2)

/-- `apply_batch_updates`: SKU updates go to column C (index 2), quantity
updates to column B (index 1); nothing is attempted when the batch is empty;
on failure the error is logged and swallowed. -/
def apply_batch_updates (sheet : List (List String))
    (sku_updates quantity_updates : List (Nat × String)) (ok : Bool) :
    List (List String) × List String :=
  let batch := sku_updates.map (fun p => (p.1, 2, p.2)) ++
    quantity_updates.map (fun p => (p.1, 1, p.2))
  if batch.isEmpty then (sheet, [])
  else if ok then (batch.foldl setCell sheet, ["Applied batch updates"])
  else (sheet, ["Error during batch update"])

/-- `append_new_rows`: new rows go directly after the last populated row; on
failure the error is logged and swallowed. -/
def append_new_rows (sheet : List (List String)) (additional_rows : List (List String))
    (ok : Bool) : List (List String) × List String :=
  if additional_rows.isEmpty then (sheet, [])
  else if ok then
    if sheet.length + 1 > 1 then (sheet ++ additional_rows, ["Added new rows"])
    else (sheet, [])
  else (sheet, ["Error adding new rows"])

/-- `clear_processed_rows`: blank columns A–D of every listed 1-indexed row;
on failure the error is logged and swallowed. -/
def clear_processed_rows (sheet : List (List String)) (rows_to_clear : List Nat)
    (ok : Bool) : List (List String) × List String :=
  if rows_to_clear.isEmpty then (sheet, [])
  else if ok then
    (rows_to_clear.foldl (fun s i => s.set (i - 1) ["", "", "", ""]) sheet,
      ["Cleared processed rows"])
  else (sheet, ["Error clearing rows"])

/-- `bundle_additional_rows + special_bundle_rows`. -/
def all_additional_rows (order_ids quantities skus parent_skus : List String) :
    List (List String) :=
  (process_bundle_sizes order_ids quantities skus).1 ++
    (process_special_bundles order_ids quantities skus parent_skus).1

/-- `list(set(bundle_rows_to_clear + special_bundle_clear))`; the embedding
deduplicates keeping first occurrences (the Python set order is arbitrary,
and no behaviour below depends on it). -/
def all_rows_to_clear (order_ids quantities skus parent_skus : List String) : List Nat :=
  ((process_bundle_sizes order_ids quantities skus).2 ++
    (process_special_bundles order_ids quantities skus parent_skus).2).dedup

/-- Result of one `process_picklist` run: the final sheet, the log, and the
returned boolean. -/
structure RunResult where
  sheet : List (List String)
  log : List String
  ok : Bool
  deriving DecidableEq, Repr

/-- `process_picklist`: read the four columns, plan, apply batch updates,
append the expansion rows, clear the replaced rows.  The source's
`try`/`except` only turns connection or fetch errors into `False`; sink-write
failures are swallowed inside the helpers, so the run returns `True` whenever
the table has data. -/
def process_picklist (sheet : List (List String)) (b : SinkBehavior) : RunResult :=
  let order_ids := colValues sheet 0
  let quantities := colValues sheet 1
  let skus := colValues sheet 2
  let parent_skus := colValues sheet 3
  if order_ids.length ≤ 1 then
    { sheet := sheet, log := ["No data found in the worksheet"], ok := false }
  else
    let r1 := process_individual_sizes order_ids quantities skus
    let a1 := apply_batch_updates sheet r1.1 r1.2.1 b.batchOk
    let adds := all_additional_rows order_ids quantities skus parent_skus
    let clears := all_rows_to_clear order_ids quantities skus parent_skus
    let a2 := append_new_rows a1.1 adds b.appendOk
    let a3 := clear_processed_rows a2.1 clears b.clearOk
    { sheet := a3.1, log := a1.2 ++ a2.2 ++ a3.2, ok := true }

/-! ## Helper lemmas -/

/-- Membership in an `enumConcat` loop is membership in some row's output. -/
theorem mem_enumConcat {f : Nat → α → List β} {b : β} :
    ∀ {s : Nat} {l : List α},
      b ∈ enumConcat f s l ↔ ∃ i a, l[i]? = some a ∧ b ∈ f (s + i) a := by
  intro s l
  induction l generalizing s with
  | nil => simp [enumConcat]
  | cons a rest ih =>
    simp only [enumConcat, List.mem_append, ih]
    constructor
    · rintro (h | ⟨i, a', h1, h2⟩)
      · exact ⟨0, a, by simp, by simpa using h⟩
      · refine ⟨i + 1, a', by simpa using h1, ?_⟩
        have : s + 1 + i = s + (i + 1) := by omega
        rwa [this] at h2
    · rintro ⟨i, a', h1, h2⟩
      cases i with
      | zero =>
        simp only [List.getElem?_cons_zero, Option.some_inj] at h1
        subst h1
        exact Or.inl (by simpa using h2)
      | succ i =>
        refine Or.inr ⟨i, a', by simpa using h1, ?_⟩
        have : s + (i + 1) = s + 1 + i := by omega
        rwa [this] at h2

/-- The SKU-update component of `process_individual_sizes` as a per-row loop. -/
theorem indivAux_fst_eq (s : Nat) (rows : List (String × String × String)) :
    (indivAux s rows).1 =
      enumConcat (fun i r => (indivRowStep i r.1 r.2.1 r.2.2).1) s rows := by
  induction rows generalizing s with
  | nil => rfl
  | cons r rest ih =>
    obtain ⟨oid, q, sk⟩ := r
    simp [indivAux, enumConcat, ih]

/-- The quantity-update component of `process_individual_sizes` as a per-row
loop. -/
theorem indivAux_snd_eq (s : Nat) (rows : List (String × String × String)) :
    (indivAux s rows).2 =
      enumConcat (fun i r => (indivRowStep i r.1 r.2.1 r.2.2).2) s rows := by
  induction rows generalizing s with
  | nil => rfl
  | cons r rest ih =>
    obtain ⟨oid, q, sk⟩ := r
    simp [indivAux, enumConcat, ih]

/-- The per-row output of `process_bundle_sizes`' additional-row list. -/
def bundleRowAdds (_i : Nat) (r : String × String × String) : List (List String) :=
  match bundleRowMatch r.1 r.2.1 r.2.2 with
  | some key => bundleExpansion key r.1 r.2.1 r.2.2
  | none => []

/-- The per-row output of `process_bundle_sizes`' rows-to-clear list. -/
def bundleRowClears (i : Nat) (r : String × String × String) : List Nat :=
  match bundleRowMatch r.1 r.2.1 r.2.2 with
  | some _ => [i]
  | none => []

/-- The additional rows of `process_bundle_sizes` as a per-row loop. -/
theorem bundleAux_fst_eq (s : Nat) (rows : List (String × String × String)) :
    (bundleAux s rows).1 = enumConcat bundleRowAdds s rows := by
  induction rows generalizing s with
  | nil => rfl
  | cons r rest ih =>
    obtain ⟨oid, q, sk⟩ := r
    simp only [bundleAux, enumConcat, bundleRowAdds]
    cases bundleRowMatch oid q sk <;> simp [ih]

/-- The rows-to-clear of `process_bundle_sizes` as a per-row loop. -/
theorem bundleAux_snd_eq (s : Nat) (rows : List (String × String × String)) :
    (bundleAux s rows).2 = enumConcat bundleRowClears s rows := by
  induction rows generalizing s with
  | nil => rfl
  | cons r rest ih =>
    obtain ⟨oid, q, sk⟩ := r
    simp only [bundleAux, enumConcat, bundleRowClears]
    cases bundleRowMatch oid q sk <;> simp [ih]

/-- The per-row output of `process_special_bundles`' bundle-row list. -/
def specialRowAdds (_i : Nat) (r : String × String × String × String) :
    List (List String) :=
  match specialRowMatch r.1 r.2.1 r.2.2.1 with
  | some key => specialExpansion key r.1 r.2.1 r.2.2.1 r.2.2.2
  | none => []

/-- The per-row output of `process_special_bundles`' rows-to-clear list. -/
def specialRowClears (i : Nat) (r : String × String × String × String) : List Nat :=
  match specialRowMatch r.1 r.2.1 r.2.2.1 with
  | some _ => [i]
  | none => []

/-- The bundle rows of `process_special_bundles` as a per-row loop. -/
theorem specialAux_fst_eq (s : Nat) (rows : List (String × String × String × String)) :
    (specialAux s rows).1 = enumConcat specialRowAdds s rows := by
  induction rows generalizing s with
  | nil => rfl
  | cons r rest ih =>
    obtain ⟨oid, q, sk, pk⟩ := r
    simp only [specialAux, enumConcat, specialRowAdds]
    cases specialRowMatch oid q sk <;> simp [ih]

/-- The rows-to-clear of `process_special_bundles` as a per-row loop. -/
theorem specialAux_snd_eq (s : Nat) (rows : List (String × String × String × String)) :
    (specialAux s rows).2 = enumConcat specialRowClears s rows := by
  induction rows generalizing s with
  | nil => rfl
  | cons r rest ih =>
    obtain ⟨oid, q, sk, pk⟩ := r
    simp only [specialAux, enumConcat, specialRowClears]
    cases specialRowMatch oid q sk <;> simp [ih]

/-- Zipping the three mapped columns of a row list recovers the row list. -/
theorem zip3_map {α β : Type} (l : List α) (f g h : α → β) :
    (l.map f).zip ((l.map g).zip (l.map h)) = l.map fun r => (f r, g r, h r) := by
  induction l with
  | nil => rfl
  | cons a rest ih => simp [ih]

/-- Zipping the four mapped columns of a row list recovers the row list. -/
theorem zip4_map {α β : Type} (l : List α) (f g h k : α → β) :
    (l.map f).zip ((l.map g).zip ((l.map h).zip (l.map k))) =
      l.map fun r => (f r, g r, h r, k r) := by
  induction l with
  | nil => rfl
  | cons a rest ih => simp [ih]

/-- A row with an empty order id or quantity cell produces nothing in the
individual-size loop. -/
theorem indivRowStep_skip {index : Nat} {oid q sk : String} (h : oid = "" ∨ q = "") :
    indivRowStep index oid q sk = ([], []) := by
  unfold indivRowStep
  rw [if_pos h]

/-- A row whose fields contain no single-size pattern produces nothing in the
individual-size loop. -/
theorem indivRowStep_noMatch {index : Nat} {oid q sk : String}
    (h : fieldSearch sizeMatchAt oid sk = none) :
    indivRowStep index oid q sk = ([], []) := by
  unfold indivRowStep
  split
  · rfl
  · rw [h]

/-- Value of the individual-size loop body on a matched row with a known key. -/
theorem indivRowStep_matched {index : Nat} {oid q sk key v : String}
    (h0 : ¬(oid = "" ∨ q = "")) (h1 : fieldSearch sizeMatchAt oid sk = some key)
    (h2 : List.lookup key SIZE_TO_SKU = some v) :
    indivRowStep index oid q sk =
      ([(index, String.mk (splitFirstOn " x ".data v.data).1)],
        [(index, qstr ((pyInt (splitFirstOn " x ".data v.data).2).getD 0 *
          parse_quantity q))]) := by
  unfold indivRowStep
  simp only [if_neg h0, h1, h2]

/-- A row with an empty order id or quantity cell never matches a size bundle. -/
theorem bundleRowMatch_skip {oid q sk : String} (h : oid = "" ∨ q = "") :
    bundleRowMatch oid q sk = none := by
  unfold bundleRowMatch
  rw [if_pos h]

/-- A row with an empty SKU or quantity cell never matches a special bundle. -/
theorem specialRowMatch_skip {oid q sk : String} (h : sk = "" ∨ q = "") :
    specialRowMatch oid q sk = none := by
  unfold specialRowMatch
  rw [if_pos h]

/-- A `filterMap` that keeps every element preserves the length. -/
theorem length_filterMap_all_some {α β : Type} {f : α → Option β} :
    ∀ {l : List α}, (∀ a ∈ l, (f a).isSome) → (l.filterMap f).length = l.length := by
  intro l
  induction l with
  | nil => simp
  | cons a rest ih =>
    intro h
    have ha := h a (by simp)
    obtain ⟨b, hb⟩ := Option.isSome_iff_exists.mp ha
    rw [List.filterMap_cons, hb]
    simp only [List.length_cons]
    rw [ih fun x hx => h x (by simp [hx])]

/-- A successful `List.lookup` result is a member of the table. -/
theorem lookup_mem {key v : String} :
    ∀ {l : List (String × String)}, List.lookup key l = some v → (key, v) ∈ l := by
  intro l
  induction l with
  | nil => intro h; simp [List.lookup] at h
  | cons p rest ih =>
    obtain ⟨pk, pv⟩ := p
    intro h
    rw [List.lookup] at h
    cases hk : key == pk with
    | false =>
      rw [hk] at h
      exact List.mem_cons_of_mem _ (ih h)
    | true =>
      rw [hk] at h
      have h1 : key = pk := by simpa using hk
      have h2 : pv = v := by simpa using h
      subst h1
      subst h2
      exact List.mem_cons_self _ _

/-- Every value of `SIZES_TO_SKU` splits on commas into nonempty entries. -/
theorem sizes_value_entries_nonempty {key v : String}
    (h : List.lookup key SIZES_TO_SKU = some v) : ∀ e ∈ splitComma v.data, e ≠ [] := by
  have hm := lookup_mem h
  have hall : ∀ p ∈ SIZES_TO_SKU, ∀ e ∈ splitComma p.2.data, e ≠ [] := by decide
  exact hall _ hm

/-- A matched multi-size bundle with a known key expands to exactly one row
per comma-separated table entry. -/
theorem bundleExpansion_length {key v oid q sk : String}
    (h : List.lookup key SIZES_TO_SKU = some v) :
    (bundleExpansion key oid q sk).length = (splitComma v.data).length := by
  unfold bundleExpansion
  rw [h]
  refine length_filterMap_all_some fun e he => ?_
  have hne := sizes_value_entries_nonempty h e he
  simp [hne]

/-- A fold of cell writes does not change the number of rows. -/
theorem length_foldl_setCell :
    ∀ (l : List (Nat × Nat × String)) (s : List (List String)),
      (l.foldl setCell s).length = s.length := by
  intro l
  induction l with
  | nil => intro s; rfl
  | cons u rest ih =>
    intro s
    rw [List.foldl_cons, ih]
    simp [setCell]

/-- A fold of cell writes leaves every untargeted row unchanged. -/
theorem getElem?_foldl_setCell_ne :
    ∀ (l : List (Nat × Nat × String)) (s : List (List String)) (i : Nat),
      (∀ u ∈ l, u.1 - 1 ≠ i) → (l.foldl setCell s)[i]? = s[i]? := by
  intro l
  induction l with
  | nil => intro s i _; rfl
  | cons u rest ih =>
    intro s i h
    rw [List.foldl_cons, ih _ _ fun x hx => h x (List.mem_cons_of_mem _ hx)]
    exact List.getElem?_set_ne (h u (List.mem_cons_self _ _))

/-- A fold of row blankings does not change the number of rows. -/
theorem length_foldl_blank :
    ∀ (l : List Nat) (s : List (List String)),
      (l.foldl (fun s j => s.set (j - 1) ["", "", "", ""]) s).length = s.length := by
  intro l
  induction l with
  | nil => intro s; rfl
  | cons k rest ih =>
    intro s
    rw [List.foldl_cons, ih]
    simp

/-- A fold of row blankings leaves every untargeted row unchanged. -/
theorem getElem?_foldl_blank_ne :
    ∀ (l : List Nat) (s : List (List String)) (i : Nat),
      (∀ j ∈ l, j - 1 ≠ i) →
      (l.foldl (fun s j => s.set (j - 1) ["", "", "", ""]) s)[i]? = s[i]? := by
  intro l
  induction l with
  | nil => intro s i _; rfl
  | cons k rest ih =>
    intro s i h
    rw [List.foldl_cons, ih _ _ fun x hx => h x (List.mem_cons_of_mem _ hx)]
    exact List.getElem?_set_ne (h k (List.mem_cons_self _ _))

/-- A row already blank stays blank under a fold of row blankings. -/
theorem getElem?_foldl_blank_of_blank :
    ∀ (l : List Nat) (s : List (List String)) (i : Nat),
      s[i]? = some ["", "", "", ""] →
      (l.foldl (fun s j => s.set (j - 1) ["", "", "", ""]) s)[i]? =
        some ["", "", "", ""] := by
  intro l
  induction l with
  | nil => intro s i h; exact h
  | cons k rest ih =>
    intro s i h
    rw [List.foldl_cons]
    refine ih _ _ ?_
    by_cases hk : k - 1 = i
    · subst hk
      have hlt : k - 1 < s.length := by
        rcases List.getElem?_eq_some.mp h with ⟨hl, _⟩
        exact hl
      rw [List.getElem?_set, if_pos rfl, if_pos hlt]
    · rw [List.getElem?_set_ne hk]
      exact h

/-- Every row listed in a fold of row blankings ends blank. -/
theorem getElem?_foldl_blank_mem :
    ∀ (l : List Nat) (s : List (List String)) (j : Nat),
      j ∈ l → j - 1 < s.length →
      (l.foldl (fun s k => s.set (k - 1) ["", "", "", ""]) s)[j - 1]? =
        some ["", "", "", ""] := by
  intro l
  induction l with
  | nil => intro s j h; exact absurd h (List.not_mem_nil _)
  | cons k rest ih =>
    intro s j hmem hlt
    rw [List.foldl_cons]
    rcases List.mem_cons.mp hmem with hk | hk
    · subst hk
      refine getElem?_foldl_blank_of_blank _ _ _ ?_
      rw [List.getElem?_set, if_pos rfl, if_pos hlt]
    · exact ih _ _ hk (by simpa using hlt)

/-- Blanking rows strictly below a cut keeps the tail beyond the cut. -/
theorem drop_set_of_lt (s : List (List String)) (m n : Nat) (v : List String)
    (h : m < n) : (s.set m v).drop n = s.drop n := by
  apply List.ext_getElem?
  intro k
  rw [List.getElem?_drop, List.getElem?_drop]
  exact List.getElem?_set_ne (by omega)

/-- A fold of row blankings below a cut keeps the tail beyond the cut. -/
theorem drop_foldl_blank :
    ∀ (l : List Nat) (s : List (List String)) (n : Nat),
      (∀ j ∈ l, j - 1 < n) →
      (l.foldl (fun s k => s.set (k - 1) ["", "", "", ""]) s).drop n = s.drop n := by
  intro l
  induction l with
  | nil => intro s n _; rfl
  | cons k rest ih =>
    intro s n h
    rw [List.foldl_cons, ih _ _ fun x hx => h x (List.mem_cons_of_mem _ hx)]
    exact drop_set_of_lt _ _ _ _ (h k (List.mem_cons_self _ _))

/-- `apply_batch_updates` does not change the number of rows. -/
theorem apply_batch_updates_length (sheet : List (List String))
    (su qu : List (Nat × String)) (ok : Bool) :
    (apply_batch_updates sheet su qu ok).1.length = sheet.length := by
  simp only [apply_batch_updates]
  split
  · rfl
  · split
    · exact length_foldl_setCell _ _
    · rfl

/-- `apply_batch_updates` leaves every untargeted row unchanged. -/
theorem apply_batch_updates_getElem?_ne (sheet : List (List String))
    (su qu : List (Nat × String)) (ok : Bool) (i : Nat)
    (hsu : ∀ u ∈ su, u.1 - 1 ≠ i) (hqu : ∀ u ∈ qu, u.1 - 1 ≠ i) :
    (apply_batch_updates sheet su qu ok).1[i]? = sheet[i]? := by
  simp only [apply_batch_updates]
  split
  · rfl
  · split
    · refine getElem?_foldl_setCell_ne _ _ _ fun u hu => ?_
      rcases List.mem_append.mp hu with hm | hm
      · obtain ⟨p, hp, rfl⟩ := List.mem_map.mp hm
        exact hsu p hp
      · obtain ⟨p, hp, rfl⟩ := List.mem_map.mp hm
        exact hqu p hp
    · rfl

/-- On a successful append over a nonempty sheet the new rows go at the end. -/
theorem append_new_rows_eq (sheet adds : List (List String)) (h : 1 ≤ sheet.length) :
    (append_new_rows sheet adds true).1 = sheet ++ adds := by
  unfold append_new_rows
  rcases adds with _ | ⟨a, t⟩
  · simp
  · simp only [List.isEmpty_cons, Bool.false_eq_true, if_false, if_true]
    rw [if_pos (by omega)]

/-- `append_new_rows` leaves every row before the append point unchanged. -/
theorem append_new_rows_getElem?_lt (sheet adds : List (List String)) (ok : Bool)
    (i : Nat) (h : i < sheet.length) :
    (append_new_rows sheet adds ok).1[i]? = sheet[i]? := by
  unfold append_new_rows
  split
  · rfl
  · split
    · split
      · exact List.getElem?_append_left h
      · rfl
    · rfl

/-- `clear_processed_rows` does not change the number of rows. -/
theorem clear_processed_rows_length (sheet : List (List String)) (l : List Nat)
    (ok : Bool) : (clear_processed_rows sheet l ok).1.length = sheet.length := by
  unfold clear_processed_rows
  split
  · rfl
  · split
    · exact length_foldl_blank _ _
    · rfl

/-- `clear_processed_rows` leaves every unlisted row unchanged. -/
theorem clear_processed_rows_getElem?_ne (sheet : List (List String)) (l : List Nat)
    (ok : Bool) (i : Nat) (h : ∀ j ∈ l, j - 1 ≠ i) :
    (clear_processed_rows sheet l ok).1[i]? = sheet[i]? := by
  unfold clear_processed_rows
  split
  · rfl
  · split
    · exact getElem?_foldl_blank_ne _ _ _ h
    · rfl

/-- On a successful clear every listed in-range row ends blank. -/
theorem clear_processed_rows_getElem?_mem (sheet : List (List String)) (l : List Nat)
    (j : Nat) (hj : j ∈ l) (hlt : j - 1 < sheet.length) :
    (clear_processed_rows sheet l true).1[j - 1]? = some ["", "", "", ""] := by
  unfold clear_processed_rows
  split
  · rename_i hemp
    rw [List.isEmpty_eq_true] at hemp
    subst hemp
    exact absurd hj (List.not_mem_nil _)
  · split
    · exact getElem?_foldl_blank_mem _ _ _ hj hlt
    · simp at *

/-- `clear_processed_rows` below a cut keeps the tail beyond the cut. -/
theorem clear_processed_rows_drop (sheet : List (List String)) (l : List Nat)
    (ok : Bool) (n : Nat) (h : ∀ j ∈ l, j - 1 < n) :
    (clear_processed_rows sheet l ok).1.drop n = sheet.drop n := by
  unfold clear_processed_rows
  split
  · rfl
  · split
    · exact drop_foldl_blank _ _ _ h
    · rfl

/-- Membership in the combined clear set, characterised row by row. -/
theorem mem_all_rows_to_clear {order_ids quantities skus parent_skus : List String}
    {j : Nat} :
    j ∈ all_rows_to_clear order_ids quantities skus parent_skus ↔
      (∃ i r key, (order_ids.zip (quantities.zip skus))[i]? = some r ∧
          bundleRowMatch r.1 r.2.1 r.2.2 = some key ∧ j = 1 + i) ∨
        (∃ i r key,
          (order_ids.zip (quantities.zip (skus.zip parent_skus)))[i]? = some r ∧
            specialRowMatch r.1 r.2.1 r.2.2.1 = some key ∧ j = 1 + i) := by
  unfold all_rows_to_clear
  rw [List.mem_dedup, List.mem_append,
    show (process_bundle_sizes order_ids quantities skus).2 = _ from bundleAux_snd_eq 1 _,
    show (process_special_bundles order_ids quantities skus parent_skus).2 = _ from
      specialAux_snd_eq 1 _,
    mem_enumConcat, mem_enumConcat]
  constructor
  · rintro (⟨i, r, hz, hin⟩ | ⟨i, r, hz, hin⟩)
    · rcases hm : bundleRowMatch r.1 r.2.1 r.2.2 with _ | key
      · simp [bundleRowClears, hm] at hin
      · simp only [bundleRowClears, hm, List.mem_singleton] at hin
        exact Or.inl ⟨i, r, key, hz, hm, hin⟩
    · rcases hm : specialRowMatch r.1 r.2.1 r.2.2.1 with _ | key
      · simp [specialRowClears, hm] at hin
      · simp only [specialRowClears, hm, List.mem_singleton] at hin
        exact Or.inr ⟨i, r, key, hz, hm, hin⟩
  · rintro (⟨i, r, key, hz, hm, hj⟩ | ⟨i, r, key, hz, hm, hj⟩)
    · exact Or.inl ⟨i, r, hz, by simp [bundleRowClears, hm, hj]⟩
    · exact Or.inr ⟨i, r, hz, by simp [specialRowClears, hm, hj]⟩

/-- The four zipped columns read from a rectangular sheet are its rows. -/
theorem colValues_zip3 (sheet : List (List String)) :
    (colValues sheet 0).zip ((colValues sheet 1).zip (colValues sheet 2)) =
      sheet.map fun r => (r.getD 0 "", r.getD 1 "", r.getD 2 "") := by
  unfold colValues
  exact zip3_map _ _ _ _

/-- The four zipped columns read from a rectangular sheet are its rows. -/
theorem colValues_zip4 (sheet : List (List String)) :
    (colValues sheet 0).zip
        ((colValues sheet 1).zip ((colValues sheet 2).zip (colValues sheet 3))) =
      sheet.map fun r => (r.getD 0 "", r.getD 1 "", r.getD 2 "", r.getD 3 "") := by
  unfold colValues
  exact zip4_map _ _ _ _ _

/-- Every index in the clear set of a sheet is a valid 1-based row index. -/
theorem clears_bounds {sheet : List (List String)} {j : Nat}
    (h : j ∈ all_rows_to_clear (colValues sheet 0) (colValues sheet 1)
      (colValues sheet 2) (colValues sheet 3)) :
    1 ≤ j ∧ j - 1 < sheet.length := by
  rcases mem_all_rows_to_clear.mp h with ⟨i, r, key, hz, _, hj⟩ | ⟨i, r, key, hz, _, hj⟩
  · rw [colValues_zip3, List.getElem?_map] at hz
    rcases hr : sheet[i]? with _ | row
    · rw [hr] at hz
      exact Option.noConfusion hz
    · have := (List.getElem?_eq_some.mp hr).1
      omega
  · rw [colValues_zip4, List.getElem?_map] at hz
    rcases hr : sheet[i]? with _ | row
    · rw [hr] at hz
      exact Option.noConfusion hz
    · have := (List.getElem?_eq_some.mp hr).1
      omega

/-! ## Claims -/

/-- C1 counterexample: a row whose text matches both the multi-size-bundle
pattern and a single-size pattern is bundle-expanded and cleared, yet also
receives the `SingleSize` in-place cell updates — the run applies both, so the
mutual exclusivity the claim states does not hold in the code. -/
theorem C1_counterexample :
    (process_bundle_sizes ["(3 SIZES, 5s) (10\" x 7\") 5pc"] ["Quantity: 1"] [""]).2 =
        [1] ∧
      (process_individual_sizes ["(3 SIZES, 5s) (10\" x 7\") 5pc"] ["Quantity: 1"]
          [""]).1 = [(1, "1152")] ∧
      (process_individual_sizes ["(3 SIZES, 5s) (10\" x 7\") 5pc"] ["Quantity: 1"]
          [""]).2.1 = [(1, "Quantity: 1")] := by
  decide

/-- C1 as amended: a row matching a `MultiSizeBundle` or `NamedBundle` rule is
expanded and cleared; a `SingleSize` in-place update may additionally be
recorded and applied for it, but the batch updates are applied before the
clears, so the row still ends blank, with the expansion rows appended after
the original rows. -/
theorem C1_amended (sheet : List (List String)) (j : Nat)
    (hlen : 1 < sheet.length)
    (hj : j ∈ all_rows_to_clear (colValues sheet 0) (colValues sheet 1)
      (colValues sheet 2) (colValues sheet 3)) :
    (process_picklist sheet sinkAllOk).sheet[j - 1]? = some ["", "", "", ""] ∧
      (process_picklist sheet sinkAllOk).sheet.length =
        sheet.length + (all_additional_rows (colValues sheet 0) (colValues sheet 1)
          (colValues sheet 2) (colValues sheet 3)).length ∧
      (process_picklist sheet sinkAllOk).sheet.drop sheet.length =
        all_additional_rows (colValues sheet 0) (colValues sheet 1)
          (colValues sheet 2) (colValues sheet 3) := by
  have hb := clears_bounds hj
  have hlen' : ¬(colValues sheet 0).length ≤ 1 := by
    unfold colValues
    simp only [List.length_map]
    omega
  simp only [process_picklist, if_neg hlen', sinkAllOk]
  have hs1 := apply_batch_updates_length sheet
    (process_individual_sizes (colValues sheet 0) (colValues sheet 1)
      (colValues sheet 2)).1
    (process_individual_sizes (colValues sheet 0) (colValues sheet 1)
      (colValues sheet 2)).2.1 true
  rw [append_new_rows_eq _ _ (by omega)]
  refine ⟨?_, ?_, ?_⟩
  · exact clear_processed_rows_getElem?_mem _ _ _ hj (by simp [hs1]; omega)
  · rw [clear_processed_rows_length]
    simp [hs1]
  · rw [clear_processed_rows_drop _ _ _ _ fun j' hj' => (clears_bounds hj').2]
    rw [show sheet.length = (apply_batch_updates sheet
      (process_individual_sizes (colValues sheet 0) (colValues sheet 1)
        (colValues sheet 2)).1
      (process_individual_sizes (colValues sheet 0) (colValues sheet 1)
        (colValues sheet 2)).2.1 true).1.length from hs1.symm]
    exact List.drop_left _ _

/-- Witness for C1's amended claim at a concrete two-row sheet whose second
row matches both a bundle and a single-size pattern. -/
theorem C1_witness :
    (process_picklist [["h", "h", "h", "h"],
        ["(3 SIZES, 5s) (10\" x 7\") 5pc", "Quantity: 1", "", ""]]
        sinkAllOk).sheet[2 - 1]? = some ["", "", "", ""] ∧
      (process_picklist [["h", "h", "h", "h"],
          ["(3 SIZES, 5s) (10\" x 7\") 5pc", "Quantity: 1", "", ""]]
          sinkAllOk).sheet.length =
        ([["h", "h", "h", "h"],
          ["(3 SIZES, 5s) (10\" x 7\") 5pc", "Quantity: 1", "", ""]] :
            List (List String)).length +
        (all_additional_rows
          (colValues [["h", "h", "h", "h"],
            ["(3 SIZES, 5s) (10\" x 7\") 5pc", "Quantity: 1", "", ""]] 0)
          (colValues [["h", "h", "h", "h"],
            ["(3 SIZES, 5s) (10\" x 7\") 5pc", "Quantity: 1", "", ""]] 1)
          (colValues [["h", "h", "h", "h"],
            ["(3 SIZES, 5s) (10\" x 7\") 5pc", "Quantity: 1", "", ""]] 2)
          (colValues [["h", "h", "h", "h"],
            ["(3 SIZES, 5s) (10\" x 7\") 5pc", "Quantity: 1", "", ""]] 3)).length ∧
      (process_picklist [["h", "h", "h", "h"],
          ["(3 SIZES, 5s) (10\" x 7\") 5pc", "Quantity: 1", "", ""]]
          sinkAllOk).sheet.drop
        ([["h", "h", "h", "h"],
          ["(3 SIZES, 5s) (10\" x 7\") 5pc", "Quantity: 1", "", ""]] :
            List (List String)).length =
        all_additional_rows
          (colValues [["h", "h", "h", "h"],
            ["(3 SIZES, 5s) (10\" x 7\") 5pc", "Quantity: 1", "", ""]] 0)
          (colValues [["h", "h", "h", "h"],
            ["(3 SIZES, 5s) (10\" x 7\") 5pc", "Quantity: 1", "", ""]] 1)
          (colValues [["h", "h", "h", "h"],
            ["(3 SIZES, 5s) (10\" x 7\") 5pc", "Quantity: 1", "", ""]] 2)
          (colValues [["h", "h", "h", "h"],
            ["(3 SIZES, 5s) (10\" x 7\") 5pc", "Quantity: 1", "", ""]] 3) :=
  C1_amended [["h", "h", "h", "h"],
    ["(3 SIZES, 5s) (10\" x 7\") 5pc", "Quantity: 1", "", ""]] 2
    (by decide) (by decide)

/-- A failing batch update with a nonempty batch logs the error and returns
the sheet unchanged. -/
theorem apply_batch_updates_log_fail (sheet : List (List String))
    (su qu : List (Nat × String)) (h : su ≠ [] ∨ qu ≠ []) :
    (apply_batch_updates sheet su qu false).2 = ["Error during batch update"] := by
  have hne : (su.map (fun p : Nat × String => (p.1, 2, p.2)) ++
      qu.map (fun p : Nat × String => (p.1, 1, p.2))).isEmpty = false := by
    rcases su with _ | ⟨a, t⟩ <;> rcases qu with _ | ⟨a2, t2⟩ <;> simp_all
  simp [apply_batch_updates, hne]

/-- A failing append with pending rows logs the error and returns the sheet
unchanged. -/
theorem append_new_rows_log_fail (sheet adds : List (List String)) (h : adds ≠ []) :
    (append_new_rows sheet adds false).2 = ["Error adding new rows"] := by
  rcases adds with _ | ⟨a, t⟩
  · exact absurd rfl h
  · simp [append_new_rows]

/-- A failing clear with pending rows logs the error and returns the sheet
unchanged. -/
theorem clear_processed_rows_log_fail (sheet : List (List String)) (l : List Nat)
    (h : l ≠ []) :
    (clear_processed_rows sheet l false).2 = ["Error clearing rows"] := by
  rcases l with _ | ⟨a, t⟩
  · exact absurd rfl h
  · simp [clear_processed_rows]

/-- C2 counterexample: a run whose batch update fails logs the failure but
still returns `true` — the claim that the run then returns `false` does not
hold in the code. -/
theorem C2_counterexample :
    (process_picklist [["h", "h", "h", "h"], ["(10\" x 7\") 5pc", "Quantity: 1", "", ""]]
        ⟨false, true, true⟩).ok = true ∧
      "Error during batch update" ∈
        (process_picklist [["h", "h", "h", "h"],
          ["(10\" x 7\") 5pc", "Quantity: 1", "", ""]] ⟨false, true, true⟩).log := by
  decide

/-- C2 as amended: when a batch cell update, row append, or row clear fails,
the failure is logged, but the exception is swallowed inside the sink helper
and the run still returns `true` to the caller whenever the table has data;
no rollback of already-applied writes is performed. -/
theorem C2_amended (sheet : List (List String)) (b : SinkBehavior)
    (hlen : 1 < sheet.length) :
    (process_picklist sheet b).ok = true ∧
      (b.batchOk = false →
        ((process_individual_sizes (colValues sheet 0) (colValues sheet 1)
            (colValues sheet 2)).1 ≠ [] ∨
          (process_individual_sizes (colValues sheet 0) (colValues sheet 1)
            (colValues sheet 2)).2.1 ≠ []) →
        "Error during batch update" ∈ (process_picklist sheet b).log) ∧
      (b.appendOk = false →
        all_additional_rows (colValues sheet 0) (colValues sheet 1)
          (colValues sheet 2) (colValues sheet 3) ≠ [] →
        "Error adding new rows" ∈ (process_picklist sheet b).log) ∧
      (b.clearOk = false →
        all_rows_to_clear (colValues sheet 0) (colValues sheet 1)
          (colValues sheet 2) (colValues sheet 3) ≠ [] →
        "Error clearing rows" ∈ (process_picklist sheet b).log) := by
  have hlen' : ¬(colValues sheet 0).length ≤ 1 := by
    unfold colValues
    simp only [List.length_map]
    omega
  refine ⟨?_, ?_, ?_, ?_⟩
  · simp [process_picklist, if_neg hlen']
  · intro hb hne
    simp only [process_picklist, if_neg hlen', hb]
    rw [apply_batch_updates_log_fail _ _ _ hne]
    simp
  · intro hb hne
    simp only [process_picklist, if_neg hlen', hb]
    rw [append_new_rows_log_fail _ _ hne]
    simp
  · intro hb hne
    simp only [process_picklist, if_neg hlen', hb]
    rw [clear_processed_rows_log_fail _ _ hne]
    simp

/-- Witness for C2's amended claim at a concrete sheet with all three sink
operations failing. -/
theorem C2_witness :
    (process_picklist [["h", "h", "h", "h"],
        ["(3 SIZES, 5s) (10\" x 7\") 5pc", "Quantity: 1", "", ""]]
        ⟨false, false, false⟩).ok = true ∧
      "Error during batch update" ∈
        (process_picklist [["h", "h", "h", "h"],
          ["(3 SIZES, 5s) (10\" x 7\") 5pc", "Quantity: 1", "", ""]]
          ⟨false, false, false⟩).log ∧
      "Error adding new rows" ∈
        (process_picklist [["h", "h", "h", "h"],
          ["(3 SIZES, 5s) (10\" x 7\") 5pc", "Quantity: 1", "", ""]]
          ⟨false, false, false⟩).log ∧
      "Error clearing rows" ∈
        (process_picklist [["h", "h", "h", "h"],
          ["(3 SIZES, 5s) (10\" x 7\") 5pc", "Quantity: 1", "", ""]]
          ⟨false, false, false⟩).log := by
  have h := C2_amended [["h", "h", "h", "h"],
    ["(3 SIZES, 5s) (10\" x 7\") 5pc", "Quantity: 1", "", ""]]
    ⟨false, false, false⟩ (by decide)
  exact ⟨h.1, h.2.1 rfl (Or.inl (by decide)), h.2.2.1 rfl (by decide),
    h.2.2.2 rfl (by decide)⟩

/-- Anything the individual-size loop body produces for a row targets that
row's index, and only rows whose fields match the single-size pattern with a
key known to the table produce anything. -/
theorem indivRowStep_mem_info {idx : Nat} {oid q sk : String} {u : Nat × String}
    (h : u ∈ (indivRowStep idx oid q sk).1 ∨ u ∈ (indivRowStep idx oid q sk).2) :
    ∃ key v, fieldSearch sizeMatchAt oid sk = some key ∧
      List.lookup key SIZE_TO_SKU = some v ∧ u.1 = idx := by
  by_cases h0 : oid = "" ∨ q = ""
  · rw [indivRowStep_skip h0] at h
    simp at h
  · rcases hm : fieldSearch sizeMatchAt oid sk with _ | key
    · rw [indivRowStep_noMatch hm] at h
      simp at h
    · rcases hl : List.lookup key SIZE_TO_SKU with _ | v
      · have hstep : indivRowStep idx oid q sk = ([], []) := by
          unfold indivRowStep
          simp only [if_neg h0, hm, hl]
        rw [hstep] at h
        simp at h
      · rw [indivRowStep_matched h0 hm hl] at h
        refine ⟨key, v, rfl, hl, ?_⟩
        rcases h with h | h <;> · rw [List.mem_singleton] at h; rw [h]

/-- C3 counterexample: a row whose order id contains `(4 SIZES, 5s)` matches
no catalog rule — no `SingleSize` rule, no `MultiSizeBundle` rule (the
pattern matches but the key is absent from `SIZES_TO_SKU`), no `NamedBundle`
— yet the run blanks it: `rows_to_clear.append` fires on the regex match
regardless of the table lookup, with zero expansion rows produced. -/
theorem C3_counterexample :
    sizeRuleMatch "(4 SIZES, 5s) item" "" = none ∧
      fieldSearch bundleMatchAt "(4 SIZES, 5s) item" "" = some "(4 SIZES, 5s)" ∧
      List.lookup "(4 SIZES, 5s)" SIZES_TO_SKU = none ∧
      specialBundleMatch "(4 SIZES, 5s) item" "" = none ∧
      process_bundle_sizes ["(4 SIZES, 5s) item"] ["Quantity: 1"] [""] = ([], [1]) ∧
      (process_picklist [["h", "h", "h", "h"],
          ["(4 SIZES, 5s) item", "Quantity: 1", "", ""]] sinkAllOk).sheet[1]? =
        some ["", "", "", ""] ∧
      (["", "", "", ""] : List String) ≠ ["(4 SIZES, 5s) item", "Quantity: 1", "", ""] := by
  decide

/-- C3 as amended: a table row whose fields match no `SingleSize` rule (no
size-pattern match with a known key), do not match the multi-size-bundle
pattern at all, and match no `NamedBundle`, is byte-identical after a run: it
receives no cell update, is never cleared, and appended rows land only after
the original rows.  The one exception the code adds: a row matching the
multi-size-bundle pattern with a key absent from the table is cleared even
though its expansion is empty (first conjunct: an unknown key expands to no
rows). -/
theorem C3_unmatched_row_untouched :
    (∀ (key oid q sk : String), List.lookup key SIZES_TO_SKU = none →
        bundleExpansion key oid q sk = []) ∧
      ∀ (sheet : List (List String)) (b : SinkBehavior)
        (i : Nat) (row : List String), sheet[i]? = some row →
        sizeRuleMatch (row.getD 0 "") (row.getD 2 "") = none →
        fieldSearch bundleMatchAt (row.getD 0 "") (row.getD 2 "") = none →
        specialBundleMatch (row.getD 0 "") (row.getD 2 "") = none →
        (∀ u ∈ (process_individual_sizes (colValues sheet 0) (colValues sheet 1)
            (colValues sheet 2)).1, u.1 ≠ i + 1) ∧
          (∀ u ∈ (process_individual_sizes (colValues sheet 0) (colValues sheet 1)
            (colValues sheet 2)).2.1, u.1 ≠ i + 1) ∧
          (i + 1) ∉ all_rows_to_clear (colValues sheet 0) (colValues sheet 1)
            (colValues sheet 2) (colValues sheet 3) ∧
          (process_picklist sheet b).sheet[i]? = some row := by
  constructor
  · intro key oid q sk h
    unfold bundleExpansion
    rw [h]
    rfl
  intro sheet b i row hrow h1 h2 h3
  have hi : i < sheet.length := (List.getElem?_eq_some.mp hrow).1
  have hbm : bundleRowMatch (row.getD 0 "") (row.getD 1 "") (row.getD 2 "") = none := by
    unfold bundleRowMatch
    split
    · rfl
    · exact h2
  have hsm : specialRowMatch (row.getD 0 "") (row.getD 1 "") (row.getD 2 "") = none := by
    unfold specialRowMatch
    split
    · rfl
    · exact h3
  have hclears : ∀ j ∈ all_rows_to_clear (colValues sheet 0) (colValues sheet 1)
      (colValues sheet 2) (colValues sheet 3), j - 1 ≠ i := by
    intro j hj hcontra
    rcases mem_all_rows_to_clear.mp hj with ⟨i', r, key, hz, hm, hjeq⟩ |
      ⟨i', r, key, hz, hm, hjeq⟩
    · rw [colValues_zip3, List.getElem?_map] at hz
      have hii : i' = i := by omega
      subst hii
      rw [hrow] at hz
      have hr : r = (row.getD 0 "", row.getD 1 "", row.getD 2 "") := by
        simpa using hz.symm
      rw [hr] at hm
      simp only at hm
      rw [hbm] at hm
      exact Option.noConfusion hm
    · rw [colValues_zip4, List.getElem?_map] at hz
      have hii : i' = i := by omega
      subst hii
      rw [hrow] at hz
      have hr : r = (row.getD 0 "", row.getD 1 "", row.getD 2 "", row.getD 3 "") := by
        simpa using hz.symm
      rw [hr] at hm
      simp only at hm
      rw [hsm] at hm
      exact Option.noConfusion hm
  have hupd : ∀ side : Bool, ∀ u ∈ (if side then
      (process_individual_sizes (colValues sheet 0) (colValues sheet 1)
        (colValues sheet 2)).1 else
      (process_individual_sizes (colValues sheet 0) (colValues sheet 1)
        (colValues sheet 2)).2.1), u.1 - 1 ≠ i := by
    intro side u hu hcontra
    have hu' : u ∈ (indivAux 1 ((colValues sheet 0).zip
        ((colValues sheet 1).zip (colValues sheet 2)))).1 ∨
        u ∈ (indivAux 1 ((colValues sheet 0).zip
          ((colValues sheet 1).zip (colValues sheet 2)))).2 := by
      cases side <;> simp_all [process_individual_sizes]
    have hex : ∃ i' r, ((colValues sheet 0).zip
        ((colValues sheet 1).zip (colValues sheet 2)))[i']? = some r ∧
        (u ∈ (indivRowStep (1 + i') r.1 r.2.1 r.2.2).1 ∨
          u ∈ (indivRowStep (1 + i') r.1 r.2.1 r.2.2).2) := by
      rcases hu' with hu' | hu'
      · rw [indivAux_fst_eq, mem_enumConcat] at hu'
        obtain ⟨i', r, hz, hm⟩ := hu'
        exact ⟨i', r, hz, Or.inl hm⟩
      · rw [indivAux_snd_eq, mem_enumConcat] at hu'
        obtain ⟨i', r, hz, hm⟩ := hu'
        exact ⟨i', r, hz, Or.inr hm⟩
    obtain ⟨i', r, hz, hm⟩ := hex
    obtain ⟨key, v, hsome, hlook, hidx⟩ := indivRowStep_mem_info hm
    have hii : i' = i := by omega
    subst hii
    rw [colValues_zip3, List.getElem?_map, hrow] at hz
    have hr : r = (row.getD 0 "", row.getD 1 "", row.getD 2 "") := by
      simpa using hz.symm
    rw [hr] at hsome
    simp only at hsome
    have hrule : sizeRuleMatch (row.getD 0 "") (row.getD 2 "") = some key := by
      simp only [sizeRuleMatch, hsome, hlook]
    rw [h1] at hrule
    exact Option.noConfusion hrule
  refine ⟨fun u hu hc => hupd true u (by simpa using hu) (by omega),
    fun u hu hc => hupd false u (by simpa using hu) (by omega),
    fun hc => hclears _ hc (by omega), ?_⟩
  by_cases hlen : (colValues sheet 0).length ≤ 1
  · simp only [process_picklist, if_pos hlen]
    exact hrow
  · simp only [process_picklist, if_neg hlen]
    rw [clear_processed_rows_getElem?_ne _ _ _ _ hclears,
      append_new_rows_getElem?_lt _ _ _ _ (by rw [apply_batch_updates_length]; exact hi),
      apply_batch_updates_getElem?_ne _ _ _ _ _
        (fun u hu => hupd true u (by simpa using hu))
        (fun u hu => hupd false u (by simpa using hu))]
    exact hrow

/-- Witness for C3's amended claim at a concrete sheet whose second row
matches no rule and no pattern. -/
theorem C3_witness :
    (process_picklist [["order_sn", "Quantity", "SKU", "Parent"],
        ["ORD-77", "Quantity: 2", "555", "556"]] sinkAllOk).sheet[1]? =
      some ["ORD-77", "Quantity: 2", "555", "556"] :=
  (C3_unmatched_row_untouched.2
    [["order_sn", "Quantity", "SKU", "Parent"], ["ORD-77", "Quantity: 2", "555", "556"]]
    sinkAllOk 1 ["ORD-77", "Quantity: 2", "555", "556"]
    (by decide) (by decide) (by decide) (by decide)).2.2.2

/-- C5: for every row matching a known `SingleSize` key, the written quantity
equals the key's table multiplier times the row's parsed order quantity; in
particular, input size `(10" x 7") 10pc` with order quantity 3 yields SKU
`1152` and quantity 6. -/
theorem C5_single_size_multiplier :
    (∀ (order_ids quantities skus : List String) (i : Nat) (oid q sk key v : String),
        (order_ids.zip (quantities.zip skus))[i]? = some (oid, q, sk) →
        ¬(oid = "" ∨ q = "") →
        fieldSearch sizeMatchAt oid sk = some key →
        List.lookup key SIZE_TO_SKU = some v →
        (1 + i, String.mk (splitFirstOn " x ".data v.data).1) ∈
            (process_individual_sizes order_ids quantities skus).1 ∧
          (1 + i, qstr ((pyInt (splitFirstOn " x ".data v.data).2).getD 0 *
            parse_quantity q)) ∈
            (process_individual_sizes order_ids quantities skus).2.1) ∧
      process_individual_sizes ["(10\" x 7\") 10pc"] ["Quantity: 3"] [""] =
        ([(1, "1152")], [(1, "Quantity: 6")], []) := by
  constructor
  · intro order_ids quantities skus i oid q sk key v hz h0 h1 h2
    have hstep := @indivRowStep_matched (1 + i) oid q sk key v h0 h1 h2
    constructor
    · show _ ∈ (indivAux 1 (order_ids.zip (quantities.zip skus))).1
      rw [indivAux_fst_eq, mem_enumConcat]
      exact ⟨i, (oid, q, sk), hz, by rw [hstep]; simp⟩
    · show _ ∈ (indivAux 1 (order_ids.zip (quantities.zip skus))).2
      rw [indivAux_snd_eq, mem_enumConcat]
      exact ⟨i, (oid, q, sk), hz, by rw [hstep]; simp⟩
  · decide

/-- Witness for C5 at the concrete row of the claim. -/
theorem C5_witness :
    (1 + 0, String.mk (splitFirstOn " x ".data ("1152 x 2" : String).data).1) ∈
        (process_individual_sizes ["(10\" x 7\") 10pc"] ["Quantity: 3"] [""]).1 ∧
      (1 + 0, qstr ((pyInt (splitFirstOn " x ".data ("1152 x 2" : String).data).2).getD 0 *
        parse_quantity "Quantity: 3")) ∈
        (process_individual_sizes ["(10\" x 7\") 10pc"] ["Quantity: 3"] [""]).2.1 :=
  C5_single_size_multiplier.1 ["(10\" x 7\") 10pc"] ["Quantity: 3"] [""] 0
    "(10\" x 7\") 10pc" "Quantity: 3" "" "(10\" x 7\") 10pc" "1152 x 2"
    (by decide) (by decide) (by decide) (by decide)

/-- C6: for every row matching a known `MultiSizeBundle` key, the number of
appended rows equals the number of comma-separated entries in that bundle's
table value; in particular, `(3 SIZES, 5s)` with order quantity 2 produces
exactly 3 rows with SKUs 1152, 1153, 1154, each at quantity 2. -/
theorem C6_bundle_row_count :
    (∀ (order_ids quantities skus : List String),
        (process_bundle_sizes order_ids quantities skus).1 =
          enumConcat bundleRowAdds 1 (order_ids.zip (quantities.zip skus))) ∧
      (∀ (key v oid q sk : String), List.lookup key SIZES_TO_SKU = some v →
        (bundleExpansion key oid q sk).length = (splitComma v.data).length) ∧
      process_bundle_sizes ["(3 SIZES, 5s)"] ["Quantity: 2"] [""] =
        ([["(3 SIZES, 5s)", "Quantity: 2", "1152", ""],
          ["(3 SIZES, 5s)", "Quantity: 2", "1153", ""],
          ["(3 SIZES, 5s)", "Quantity: 2", "1154", ""]], [1]) := by
  refine ⟨fun order_ids quantities skus => ?_, fun key v oid q sk h => ?_, by decide⟩
  · exact bundleAux_fst_eq 1 _
  · exact bundleExpansion_length h

/-- Witness for C6 at the concrete bundle of the claim. -/
theorem C6_witness :
    (bundleExpansion "(3 SIZES, 5s)" "(3 SIZES, 5s)" "Quantity: 2" "").length =
      (splitComma ("1152 x 1,1153 x 1,1154 x 1" : String).data).length :=
  C6_bundle_row_count.2.1 "(3 SIZES, 5s)" "1152 x 1,1153 x 1,1154 x 1"
    "(3 SIZES, 5s)" "Quantity: 2" "" (by decide)

/-- C9: an unparseable quantity cell parses to 0 with a logged warning (the
`true` flag) instead of raising, a matched rule on such a row produces total
quantity 0, and the loop continues with the remaining rows unconditionally. -/
theorem C9_unparseable_quantity :
    (∀ q : String, pyInt (pyStripL (removeQTag q.data)) = none →
        parse_quantityW q = (0, true)) ∧
      (∀ (index : Nat) (oid q sk key v : String),
        ¬(oid = "" ∨ q = "") →
        fieldSearch sizeMatchAt oid sk = some key →
        List.lookup key SIZE_TO_SKU = some v →
        pyInt (pyStripL (removeQTag q.data)) = none →
        (indivRowStep index oid q sk).2 = [(index, "Quantity: 0")]) ∧
      (∀ (index : Nat) (oid q sk : String) (rest : List (String × String × String)),
        indivAux index ((oid, q, sk) :: rest) =
          ((indivRowStep index oid q sk).1 ++ (indivAux (index + 1) rest).1,
            (indivRowStep index oid q sk).2 ++ (indivAux (index + 1) rest).2)) ∧
      parse_quantityW "Quantity: abc" = (0, true) := by
  refine ⟨fun q h => ?_, fun index oid q sk key v h0 h1 h2 h3 => ?_,
    fun index oid q sk rest => rfl, by decide⟩
  · unfold parse_quantityW
    rw [h]
  · have hq : parse_quantity q = 0 := by
      unfold parse_quantity parse_quantityW
      rw [h3]
    rw [indivRowStep_matched h0 h1 h2, hq]
    simp only [mul_zero]
    have hz : qstr 0 = "Quantity: 0" := by decide
    rw [hz]

/-- Witness for C9 at the unparseable quantity of the claim. -/
theorem C9_witness :
    parse_quantityW "Quantity: abc" = (0, true) ∧
      (indivRowStep 1 "(10\" x 7\") 5pc" "Quantity: abc" "").2 = [(1, "Quantity: 0")] :=
  ⟨C9_unparseable_quantity.1 "Quantity: abc" (by decide),
    C9_unparseable_quantity.2.1 1 "(10\" x 7\") 5pc" "Quantity: abc" ""
      "(10\" x 7\") 5pc" "1152 x 1" (by decide) (by decide) (by decide) (by decide)⟩

/-- C10: a row with an empty order-id or quantity cell is skipped entirely by
the individual-size and bundle-size loops, and a row with an empty SKU or
quantity cell is skipped entirely by the special-bundle loop, regardless of
the other fields. -/
theorem C10_empty_cells_skipped :
    (∀ (index : Nat) (oid q sk : String) (rest : List (String × String × String)),
        oid = "" ∨ q = "" →
        indivAux index ((oid, q, sk) :: rest) = indivAux (index + 1) rest) ∧
      (∀ (index : Nat) (oid q sk : String) (rest : List (String × String × String)),
        oid = "" ∨ q = "" →
        bundleAux index ((oid, q, sk) :: rest) = bundleAux (index + 1) rest) ∧
      (∀ (index : Nat) (oid q sk pk : String)
          (rest : List (String × String × String × String)),
        sk = "" ∨ q = "" →
        specialAux index ((oid, q, sk, pk) :: rest) = specialAux (index + 1) rest) := by
  refine ⟨fun index oid q sk rest h => ?_, fun index oid q sk rest h => ?_,
    fun index oid q sk pk rest h => ?_⟩
  · show ((indivRowStep index oid q sk).1 ++ _, (indivRowStep index oid q sk).2 ++ _) = _
    rw [indivRowStep_skip h]
    simp
  · show (match bundleRowMatch oid q sk with
      | none => bundleAux (index + 1) rest
      | some key => (bundleExpansion key oid q sk ++ (bundleAux (index + 1) rest).1,
          index :: (bundleAux (index + 1) rest).2)) = _
    rw [bundleRowMatch_skip h]
  · show (match specialRowMatch oid q sk with
      | none => specialAux (index + 1) rest
      | some key => (specialExpansion key oid q sk pk ++ (specialAux (index + 1) rest).1,
          index :: (specialAux (index + 1) rest).2)) = _
    rw [specialRowMatch_skip h]

/-- C4 counterexample: the order id `(4 SIZES, 5s) (10" x 7") 5pc` is matched
by exactly one catalog rule — the `SingleSize` key `(10" x 7") 5pc`, which
produces its in-place updates — yet the row lands in the combined clear set,
because the multi-size-bundle regex matches `(4 SIZES, 5s)` and the code
clears on the regex match even though the key is absent from `SIZES_TO_SKU`
(so zero rows are appended for it).  This falsifies "a row matched only by a
SingleSize rule ... never a clear". -/
theorem C4_counterexample :
    sizeRuleMatch "(4 SIZES, 5s) (10\" x 7\") 5pc" "" = some "(10\" x 7\") 5pc" ∧
      (process_individual_sizes ["(4 SIZES, 5s) (10\" x 7\") 5pc"] ["Quantity: 1"]
        [""]).1 = [(1, "1152")] ∧
      fieldSearch bundleMatchAt "(4 SIZES, 5s) (10\" x 7\") 5pc" "" =
        some "(4 SIZES, 5s)" ∧
      List.lookup "(4 SIZES, 5s)" SIZES_TO_SKU = none ∧
      specialBundleMatch "(4 SIZES, 5s) (10\" x 7\") 5pc" "" = none ∧
      (process_bundle_sizes ["(4 SIZES, 5s) (10\" x 7\") 5pc"] ["Quantity: 1"]
        [""]).1 = [] ∧
      1 ∈ all_rows_to_clear ["(4 SIZES, 5s) (10\" x 7\") 5pc"] ["Quantity: 1"]
        [""] [""] := by
  decide

/-- C4 as amended: the expansion plan satisfies: appended rows arise only from
rows whose per-row production also clears that row's index, and every such
index reaches the combined clear set; a row matched only by a `SingleSize`
rule produces only cell updates and never appended rows — the individual-size
processor never clears, and a row matching neither bundle matcher contributes
no bundle append or clear — but such a row is nevertheless cleared when its
text matches the multi-size-bundle pattern with a key absent from the table,
in which case its expansion is empty. -/
theorem C4_plan_invariants :
    (∀ (order_ids quantities skus : List String),
        (process_bundle_sizes order_ids quantities skus).1 =
            enumConcat bundleRowAdds 1 (order_ids.zip (quantities.zip skus)) ∧
          (process_bundle_sizes order_ids quantities skus).2 =
            enumConcat bundleRowClears 1 (order_ids.zip (quantities.zip skus))) ∧
      (∀ (order_ids quantities skus parent_skus : List String),
        (process_special_bundles order_ids quantities skus parent_skus).1 =
            enumConcat specialRowAdds 1
              (order_ids.zip (quantities.zip (skus.zip parent_skus))) ∧
          (process_special_bundles order_ids quantities skus parent_skus).2 =
            enumConcat specialRowClears 1
              (order_ids.zip (quantities.zip (skus.zip parent_skus)))) ∧
      (∀ (i : Nat) (r : String × String × String),
        bundleRowAdds i r ≠ [] → bundleRowClears i r = [i]) ∧
      (∀ (i : Nat) (r : String × String × String × String),
        specialRowAdds i r ≠ [] → specialRowClears i r = [i]) ∧
      (∀ (order_ids quantities skus parent_skus : List String) (j : Nat),
        (j ∈ (process_bundle_sizes order_ids quantities skus).2 ∨
            j ∈ (process_special_bundles order_ids quantities skus parent_skus).2) →
        j ∈ all_rows_to_clear order_ids quantities skus parent_skus) ∧
      (∀ (order_ids quantities skus : List String),
        (process_individual_sizes order_ids quantities skus).2.2 = []) ∧
      (∀ (i : Nat) (r : String × String × String),
        bundleRowMatch r.1 r.2.1 r.2.2 = none →
        bundleRowAdds i r = [] ∧ bundleRowClears i r = []) ∧
      (∀ (i : Nat) (r : String × String × String × String),
        specialRowMatch r.1 r.2.1 r.2.2.1 = none →
        specialRowAdds i r = [] ∧ specialRowClears i r = []) ∧
      (∀ (order_ids quantities skus parent_skus : List String) (i : Nat)
          (oid q sk key : String),
        (order_ids.zip (quantities.zip skus))[i]? = some (oid, q, sk) →
        bundleRowMatch oid q sk = some key →
        List.lookup key SIZES_TO_SKU = none →
        bundleExpansion key oid q sk = [] ∧
          (1 + i) ∈ all_rows_to_clear order_ids quantities skus parent_skus) ∧
      (∀ (order_ids quantities skus parent_skus : List String) (i : Nat)
          (oid q sk pk : String),
        (order_ids.zip (quantities.zip skus))[i]? = some (oid, q, sk) →
        (order_ids.zip (quantities.zip (skus.zip parent_skus)))[i]? =
          some (oid, q, sk, pk) →
        bundleRowMatch oid q sk = none → specialRowMatch oid q sk = none →
        (1 + i) ∉ all_rows_to_clear order_ids quantities skus parent_skus) := by
  refine ⟨fun order_ids quantities skus => ⟨bundleAux_fst_eq 1 _, bundleAux_snd_eq 1 _⟩,
    fun order_ids quantities skus parent_skus =>
      ⟨specialAux_fst_eq 1 _, specialAux_snd_eq 1 _⟩,
    fun i r h => ?_, fun i r h => ?_,
    fun order_ids quantities skus parent_skus j h => ?_,
    fun order_ids quantities skus => rfl,
    fun i r h => ?_, fun i r h => ?_,
    fun order_ids quantities skus parent_skus i oid q sk key hz hm hl => ?_,
    fun order_ids quantities skus parent_skus i oid q sk pk hz3 hz4 hbm hsm hmem => ?_⟩
  · cases hm : bundleRowMatch r.1 r.2.1 r.2.2 with
    | none => exact absurd (by simp [bundleRowAdds, hm]) h
    | some key => simp [bundleRowClears, hm]
  · cases hm : specialRowMatch r.1 r.2.1 r.2.2.1 with
    | none => exact absurd (by simp [specialRowAdds, hm]) h
    | some key => simp [specialRowClears, hm]
  · unfold all_rows_to_clear
    rw [List.mem_dedup, List.mem_append]
    exact h
  · exact ⟨by simp [bundleRowAdds, h], by simp [bundleRowClears, h]⟩
  · exact ⟨by simp [specialRowAdds, h], by simp [specialRowClears, h]⟩
  · refine ⟨by unfold bundleExpansion; rw [hl]; rfl, ?_⟩
    exact mem_all_rows_to_clear.mpr (Or.inl ⟨i, (oid, q, sk), key, hz, hm, rfl⟩)
  · unfold all_rows_to_clear at hmem
    rw [List.mem_dedup, List.mem_append] at hmem
    rcases hmem with hmem | hmem
    · rw [show (process_bundle_sizes order_ids quantities skus).2 =
          enumConcat bundleRowClears 1 (order_ids.zip (quantities.zip skus)) from
          bundleAux_snd_eq 1 _, mem_enumConcat] at hmem
      obtain ⟨i', r', hz', hin⟩ := hmem
      cases hm : bundleRowMatch r'.1 r'.2.1 r'.2.2 with
      | none => simp [bundleRowClears, hm] at hin
      | some key =>
        simp only [bundleRowClears, hm, List.mem_singleton] at hin
        have hii : i = i' := by omega
        subst hii
        rw [hz3] at hz'
        have hr : r' = (oid, q, sk) := by simpa using hz'.symm
        rw [hr] at hm
        simp only at hm
        rw [hbm] at hm
        exact Option.noConfusion hm
    · rw [show (process_special_bundles order_ids quantities skus parent_skus).2 =
          enumConcat specialRowClears 1
            (order_ids.zip (quantities.zip (skus.zip parent_skus))) from
          specialAux_snd_eq 1 _, mem_enumConcat] at hmem
      obtain ⟨i', r', hz', hin⟩ := hmem
      cases hm : specialRowMatch r'.1 r'.2.1 r'.2.2.1 with
      | none => simp [specialRowClears, hm] at hin
      | some key =>
        simp only [specialRowClears, hm, List.mem_singleton] at hin
        have hii : i = i' := by omega
        subst hii
        rw [hz4] at hz'
        have hr : r' = (oid, q, sk, pk) := by simpa using hz'.symm
        rw [hr] at hm
        simp only at hm
        rw [hsm] at hm
        exact Option.noConfusion hm

/-- Witness for C4's amended claim: a matched bundle row is cleared, a row
matching the bundle pattern with an unknown key is cleared with an empty
expansion, and a row matching only a single-size pattern reaches no clear
set. -/
theorem C4_witness :
    bundleRowClears 1 ("(3 SIZES, 5s)", "Quantity: 2", "") = [1] ∧
      (bundleExpansion "(4 SIZES, 5s)" "(4 SIZES, 5s) x" "Quantity: 1" "" = [] ∧
        (1 + 0) ∈ all_rows_to_clear ["(4 SIZES, 5s) x"] ["Quantity: 1"] [""] [""]) ∧
      (1 + 0) ∉ all_rows_to_clear ["(10\" x 7\") 5pc"] ["Quantity: 1"] [""] [""] :=
  ⟨C4_plan_invariants.2.2.1 1 ("(3 SIZES, 5s)", "Quantity: 2", "") (by decide),
    C4_plan_invariants.2.2.2.2.2.2.2.2.1 ["(4 SIZES, 5s) x"] ["Quantity: 1"] [""] [""]
      0 "(4 SIZES, 5s) x" "Quantity: 1" "" "(4 SIZES, 5s)" (by decide) (by decide)
      (by decide),
    C4_plan_invariants.2.2.2.2.2.2.2.2.2 ["(10\" x 7\") 5pc"] ["Quantity: 1"] [""] [""]
      0 "(10\" x 7\") 5pc" "Quantity: 1" "" "" (by decide) (by decide) (by decide)
      (by decide)⟩

/-- A position not holding `'['` is no lookahead match. -/
theorem markerAt_not_lbracket {ch : Char} (l : List Char) (h : ch ≠ '[') :
    markerAtB (ch :: l) = false := by
  simp [markerAtB, h]

/-- A `'['`, one digit, `']'` is a lookahead match. -/
theorem markerAt_digit {d : Char} (rest : List Char) (hd : d.isDigit = true) :
    markerAtB ('[' :: d :: ']' :: rest) = true := by
  have hr : (']' : Char).isDigit = false := by decide
  simp [markerAtB, pDigits, List.takeWhile_cons, hd, hr]

/-- A bracket-free character list contains no lookahead match. -/
theorem markerAt_false_of_no_lbracket {l : List Char} (h : '[' ∉ l) :
    markerAtB l = false := by
  cases l with
  | nil => rfl
  | cons ch t =>
    refine markerAt_not_lbracket t fun hc => ?_
    rw [hc] at h
    exact h (List.mem_cons_self _ _)

/-- The splitter consumes a bracket-free prefix without splitting. -/
theorem splitMarkers_consume :
    ∀ (xs : List Char) (acc ys : List Char), (∀ ch ∈ xs, ch ≠ '[') →
      splitMarkersAux acc (xs ++ ys) = splitMarkersAux (xs.reverse ++ acc) ys := by
  intro xs
  induction xs with
  | nil => intro acc ys _; simp
  | cons ch xs' ih =>
    intro acc ys h
    have hch : markerAtB (ch :: (xs' ++ ys)) = false :=
      markerAt_not_lbracket _ (h ch (List.mem_cons_self _ _))
    rw [List.cons_append, splitMarkersAux, if_neg (by simp [hch]),
      ih (ch :: acc) ys fun x hx => h x (List.mem_cons_of_mem _ hx)]
    simp

/-- The splitter never splits a marker-free input: one piece comes back. -/
theorem splitMarkers_noSplit :
    ∀ (cs acc : List Char), (∀ i, markerAtB (cs.drop i) = false) →
      splitMarkersAux acc cs = [acc.reverse ++ cs] := by
  intro cs
  induction cs with
  | nil => intro acc _; simp [splitMarkersAux]
  | cons ch rest ih =>
    intro acc h
    have h0 : markerAtB (ch :: rest) = false := by simpa using h 0
    rw [splitMarkersAux, if_neg (by simp [h0]), ih (ch :: acc) fun i => by
      simpa using h (i + 1)]
    simp

/-- One splitting step at a marker position. -/
theorem splitMarkers_step {d : Char} (acc rest : List Char) (hd : d.isDigit = true)
    (hne : acc.take 3 ≠ [']', '1', '[']) :
    splitMarkersAux acc ('[' :: d :: ']' :: rest) =
      acc.reverse :: splitMarkersAux ['['] (d :: ']' :: rest) := by
  rw [splitMarkersAux, if_pos ⟨markerAt_digit rest hd, hne⟩]

/-- The lookbehind window after a bracket-free piece suffix never reads
`[1]` backwards, except right after a leading `[1]` piece. -/
theorem take3_ne (u rest : List Char) (hu : '[' ∉ u)
    (h0 : u = [] → rest.take 2 ≠ ['1', '[']) :
    (u.reverse ++ (']' :: rest)).take 3 ≠ [']', '1', '['] := by
  rcases hru : u.reverse with _ | ⟨x, _ | ⟨y, _ | ⟨z, w⟩⟩⟩
  · have hun : u = [] := by
      rw [← List.reverse_reverse u, hru]
      rfl
    intro heq
    simp only [List.nil_append, List.take_succ_cons] at heq
    injection heq with e1 e2
    exact h0 hun e2
  · intro heq
    simp only [List.cons_append, List.nil_append, List.take_succ_cons] at heq
    injection heq with e1 e2
    injection e2 with e3 e4
    exact absurd e3 (by decide)
  · intro heq
    simp only [List.cons_append, List.nil_append, List.take_succ_cons,
      List.take_zero] at heq
    injection heq with e1 e2
    injection e2 with e3 e4
    injection e4 with e5 e6
    exact absurd e5 (by decide)
  · intro heq
    have hz : z ∈ u := by
      rw [← List.mem_reverse, hru]
      simp
    simp only [List.cons_append, List.take_succ_cons, List.take_zero] at heq
    injection heq with e1 e2
    injection e2 with e3 e4
    injection e4 with e5 e6
    rw [e5] at hz
    exact hu hz

/-- The full splitter walk over `[1]A[2]B[3]C` with bracket-free fillers and a
nonempty `A`: a leading empty piece, then the three marked pieces. -/
theorem splitMarkers_three (A B C : List Char) (hA : A ≠ []) (hAg : '[' ∉ A)
    (hBg : '[' ∉ B) (hCg : '[' ∉ C) :
    splitMarkersAux []
        ('[' :: '1' :: ']' :: (A ++ '[' :: '2' :: ']' :: (B ++ '[' :: '3' :: ']' :: C))) =
      [[], '[' :: '1' :: ']' :: A, '[' :: '2' :: ']' :: B, '[' :: '3' :: ']' :: C] := by
  have hAmem : ∀ ch ∈ A, ch ≠ '[' := fun ch hc he => hAg (he ▸ hc)
  have hBmem : ∀ ch ∈ B, ch ≠ '[' := fun ch hc he => hBg (he ▸ hc)
  have hCdrop : ∀ i, markerAtB (C.drop i) = false := fun i =>
    markerAt_false_of_no_lbracket fun hm => hCg (List.drop_subset _ _ hm)
  rw [splitMarkers_step _ _ (by decide) (by simp)]
  rw [show splitMarkersAux ['['] ('1' :: ']' ::
      (A ++ '[' :: '2' :: ']' :: (B ++ '[' :: '3' :: ']' :: C))) =
      splitMarkersAux [']', '1', '[']
        (A ++ '[' :: '2' :: ']' :: (B ++ '[' :: '3' :: ']' :: C)) from by
    rw [splitMarkersAux, if_neg (by simp [markerAt_not_lbracket _ (by decide : ('1' : Char) ≠ '[')]),
      splitMarkersAux, if_neg (by simp [markerAt_not_lbracket _ (by decide : (']' : Char) ≠ '[')])]]
  rw [splitMarkers_consume A [']', '1', '['] _ hAmem]
  rw [splitMarkers_step _ _ (by decide)
    (take3_ne A ['1', '['] hAg fun h => absurd h hA)]
  rw [show splitMarkersAux ['['] ('2' :: ']' :: (B ++ '[' :: '3' :: ']' :: C)) =
      splitMarkersAux [']', '2', '['] (B ++ '[' :: '3' :: ']' :: C) from by
    rw [splitMarkersAux, if_neg (by simp [markerAt_not_lbracket _ (by decide : ('2' : Char) ≠ '[')]),
      splitMarkersAux, if_neg (by simp [markerAt_not_lbracket _ (by decide : (']' : Char) ≠ '[')])]]
  rw [splitMarkers_consume B [']', '2', '['] _ hBmem]
  rw [splitMarkers_step _ _ (by decide)
    (take3_ne B ['2', '['] hBg fun _ => by decide)]
  rw [show splitMarkersAux ['['] ('3' :: ']' :: C) =
      splitMarkersAux [']', '3', '['] C from by
    rw [splitMarkersAux, if_neg (by simp [markerAt_not_lbracket _ (by decide : ('3' : Char) ≠ '[')]),
      splitMarkersAux, if_neg (by simp [markerAt_not_lbracket _ (by decide : (']' : Char) ≠ '[')])]]
  rw [splitMarkers_noSplit C [']', '3', '['] hCdrop]
  simp

/-- C7 counterexample: a cell with markers `[1][2]b[3]c` — empty text between
`[1]` and `[2]` — yields only 2 entries, because the negative lookbehind
suppresses the split right after `[1]`; the claim's "exactly 3 entries" fails
there. -/
theorem C7_counterexample :
    normalizeEntries "[1][2]b[3]c" = ["[1][2]b", "[3]c"] ∧
      (normalizeEntries "[1][2]b[3]c").length ≠ 3 := by
  decide

/-- C7 as amended: for a cell `[1]A[2]B[3]C` whose filler texts contain no
bracket, with nonempty text between `[1]` and `[2]`, the normalizer returns
exactly 3 entries, the first being the cleaned-up piece that starts at the
`[1]` marker (the leading `[1]` is not a split boundary; the zero-width match
before it only produces an empty piece that is discarded). -/
theorem C7_amended (a b c : String) (ha : a ≠ "") (hag : '[' ∉ a.data)
    (hbg : '[' ∉ b.data) (hcg : '[' ∉ c.data) :
    normalizeEntries ("[1]" ++ a ++ "[2]" ++ b ++ "[3]" ++ c) =
      [cleanupEntry ("[1]" ++ a), cleanupEntry ("[2]" ++ b),
        cleanupEntry ("[3]" ++ c)] := by
  have hadata : a.data ≠ [] := fun h => ha (String.ext (by rw [h]))
  have hdata : ("[1]" ++ a ++ "[2]" ++ b ++ "[3]" ++ c).data =
      '[' :: '1' :: ']' ::
        (a.data ++ '[' :: '2' :: ']' :: (b.data ++ '[' :: '3' :: ']' :: c.data)) := by
    simp [String.data_append]
  unfold normalizeEntries
  rw [hdata, splitMarkers_three a.data b.data c.data hadata hag hbg hcg]
  simp only [List.filter_cons, List.filter_nil, decide_not]
  have h1 : ('[' :: '1' :: ']' :: a.data ≠ []) := by simp
  have h2 : ('[' :: '2' :: ']' :: b.data ≠ []) := by simp
  have h3 : ('[' :: '3' :: ']' :: c.data ≠ []) := by simp
  simp only [List.filter, decide_not, List.map]
  have e1 : cleanupEntry ("[1]" ++ a) = String.mk (cleanupChars ('[' :: '1' :: ']' :: a.data)) := by
    unfold cleanupEntry
    rw [String.data_append]
    rfl
  have e2 : cleanupEntry ("[2]" ++ b) = String.mk (cleanupChars ('[' :: '2' :: ']' :: b.data)) := by
    unfold cleanupEntry
    rw [String.data_append]
    rfl
  have e3 : cleanupEntry ("[3]" ++ c) = String.mk (cleanupChars ('[' :: '3' :: ']' :: c.data)) := by
    unfold cleanupEntry
    rw [String.data_append]
    rfl
  rw [e1, e2, e3]

/-- Witness for C7's amended claim at a three-item order cell. -/
theorem C7_witness :
    normalizeEntries ("[1]" ++ " itemA " ++ "[2]" ++ " itemB " ++ "[3]" ++ " itemC ") =
      [cleanupEntry ("[1]" ++ " itemA "), cleanupEntry ("[2]" ++ " itemB "),
        cleanupEntry ("[3]" ++ " itemC ")] :=
  C7_amended " itemA " " itemB " " itemC " (by decide) (by decide) (by decide)
    (by decide)

/-- C8 counterexample: a marker-free cell with a doubled internal space yields
one entry, but the entry is the whitespace-collapsed text, not the trimmed
input; and the empty cell yields no entry at all. -/
theorem C8_counterexample :
    normalizeEntries "a  b" = ["a b"] ∧ pyStrip "a  b" = "a  b" ∧
      ("a b" : String) ≠ "a  b" ∧ normalizeEntries "" = [] := by
  decide

/-- C8 as amended: a nonempty cell containing no bracketed numeric marker
yields exactly one entry: the input trimmed, with CRLF pairs replaced by
spaces and space runs collapsed (equal to the trimmed input whenever the cell
contains no CRLF and no repeated space). -/
theorem C8_amended (s : String) (hne : s ≠ "") (hm : hasMarkerIn s.data = false) :
    normalizeEntries s = [cleanupEntry s] := by
  have hall : ∀ i, markerAtB (s.data.drop i) = false := by
    intro i
    by_cases hi : i < s.data.length
    · have h1 := List.any_eq_false.mp hm i (List.mem_range.mpr hi)
      simpa using h1
    · rw [List.drop_eq_nil_of_le (by omega)]
      rfl
  have hd : s.data ≠ [] := fun h => hne (String.ext (by rw [h]))
  unfold normalizeEntries
  rw [splitMarkers_noSplit s.data [] hall]
  simp [hd, cleanupEntry]

/-- Witness for C8's amended claim at a concrete marker-free cell. -/
theorem C8_witness :
    normalizeEntries "Some product; Quantity: 2;" =
      [cleanupEntry "Some product; Quantity: 2;"] :=
  C8_amended "Some product; Quantity: 2;" (by decide) (by decide)

/-- Witness for C10: rows with an empty cell are skipped even when another
field matches a rule. -/
theorem C10_witness :
    indivAux 1 [("", "Quantity: 2", "(10\" x 7\") 5pc")] = indivAux 2 [] ∧
      bundleAux 1 [("", "Quantity: 2", "(3 SIZES, 5s)")] = bundleAux 2 [] ∧
      specialAux 1 [("Boot Polishing Pack", "Quantity: 2", "", "p")] = specialAux 2 [] :=
  ⟨C10_empty_cells_skipped.1 1 "" "Quantity: 2" "(10\" x 7\") 5pc" [] (Or.inl rfl),
    C10_empty_cells_skipped.2.1 1 "" "Quantity: 2" "(3 SIZES, 5s)" [] (Or.inl rfl),
    C10_empty_cells_skipped.2.2 1 "Boot Polishing Pack" "Quantity: 2" "" "p" []
      (Or.inl rfl)⟩

end ShopeePicklist
